import Mathlib

/-!
Shallow embedding of the 2D collision simulation (`main.py`): the body
model, wall bounce, spatial grid bucketing, narrow-phase collision test,
elastic collision resolution, the camera/visibility predicate and the
per-tick collision pass.  Python floats are modelled as real numbers;
a Python `ZeroDivisionError` is modelled by returning `none`.
-/

noncomputable section

open Classical

/-- Configuration constant `WORLD_SIZE = (6000, 4500)` of `main.py`. -/
def WORLD_SIZE : ℝ × ℝ := (6000, 4500)

/-- Configuration constant `GRID_SIZE = 25` of `main.py`. -/
def GRID_SIZE : ℝ := 25

/-- The precomputed neighbor offsets, in the order the Python list
comprehension produces them (`dx` outer over `[-1,0,1]`, `dy` inner,
skipping `(0,0)`). -/
def neighbor_offsets : List (ℤ × ℤ) :=
  [(-1, -1), (-1, 0), (-1, 1), (0, -1), (0, 1), (1, -1), (1, 0), (1, 1)]

/-- The `Dot` class: position, velocity, color, radius (`size`), and the
cached visibility flag. -/
structure Dot where
  posx : ℝ
  posy : ℝ
  velx : ℝ
  vely : ℝ
  color : ℕ × ℕ × ℕ
  size : ℝ
  visible : Prop

/-- `Dot.check_visibility`: the dot is visible when its world position,
shifted by the camera offset (`CURRENT_POSITION`) and scaled by the zoom,
lies within the window extended by `size` on each side.  The globals
`CURRENT_POSITION`, `current_zoom` and `WINDOW_SIZE` are passed as
parameters `offset`, `zoom`, `winW`, `winH`. -/
def check_visibility (offset : ℝ × ℝ) (zoom winW winH : ℝ) (d : Dot) : Prop :=
  (-d.size ≤ (d.posx + offset.1) * zoom ∧ (d.posx + offset.1) * zoom ≤ winW + d.size) ∧
  (-d.size ≤ (d.posy + offset.2) * zoom ∧ (d.posy + offset.2) * zoom ≤ winH + d.size)

/-- `Dot.update` (physics part): integrate the velocity, then bounce and
clamp on each axis independently.  The grid append on the last line of the
Python method is performed by `buildGrid` below. -/
def Dot.update (d : Dot) : Dot :=
  let px0 := d.posx + d.velx
  let py0 := d.posy + d.vely
  let hitx := px0 < d.size ∨ px0 > WORLD_SIZE.1 - d.size
  let hity := py0 < d.size ∨ py0 > WORLD_SIZE.2 - d.size
  { d with
    posx := if hitx then max d.size (min px0 (WORLD_SIZE.1 - d.size)) else px0
    posy := if hity then max d.size (min py0 (WORLD_SIZE.2 - d.size)) else py0
    velx := if hitx then -d.velx else d.velx
    vely := if hity then -d.vely else d.vely }

/-- `get_grid_cell`: the bucket of a position, using the zoom-adjusted
cell size `GRID_SIZE / current_zoom` (Python `//` on floats is `⌊·⌋`). -/
def get_grid_cell (zoom : ℝ) (p : ℝ × ℝ) : ℤ × ℤ :=
  (⌊p.1 / (GRID_SIZE / zoom)⌋, ⌊p.2 / (GRID_SIZE / zoom)⌋)

/-- `detect_collision`: the early bounding-box `return False` translated
to its propositional form, then the exact circle-circle test with strict
inequality. -/
def detect_collision (dot1 dot2 : Dot) : Prop :=
  ¬(|dot1.posx - dot2.posx| > dot1.size + dot2.size ∨
    |dot1.posy - dot2.posy| > dot1.size + dot2.size) ∧
  (dot1.posx - dot2.posx) * (dot1.posx - dot2.posx) +
      (dot1.posy - dot2.posy) * (dot1.posy - dot2.posy) <
    (dot1.size + dot2.size) ^ 2

/-- `resolve_collision`: the 2D elastic collision update.  Returns the new
velocity pair `(dot1.vel, dot2.vel)`; `none` models the Python
`ZeroDivisionError` raised by `dx / dist` when the two centers coincide
(`dist = 0`), or by the `coeff` division when the masses sum to zero. -/
def resolve_collision (dot1 dot2 : Dot) : Option ((ℝ × ℝ) × (ℝ × ℝ)) :=
  let dx := dot2.posx - dot1.posx
  let dy := dot2.posy - dot1.posy
  let dist := Real.sqrt (dx * dx + dy * dy)
  if dist = 0 then none
  else
    let nx := dx / dist
    let ny := dy / dist
    let dot_product := (dot2.velx - dot1.velx) * nx + (dot2.vely - dot1.vely) * ny
    if dot_product > 0 then some ((dot1.velx, dot1.vely), (dot2.velx, dot2.vely))
    else
      let m1 := dot1.size
      let m2 := dot2.size
      if m1 + m2 = 0 then none
      else
        let coeff := 2 * dot_product / (m1 + m2)
        some ((dot1.velx + coeff * m2 * nx, dot1.vely + coeff * m2 * ny),
              (dot2.velx - coeff * m1 * nx, dot2.vely - coeff * m1 * ny))

/-- Overwrite a dot's velocity (the two `dot.vel = [...]` assignments at
the end of `resolve_collision`). -/
def setVel (d : Dot) (v : ℝ × ℝ) : Dot :=
  { d with velx := v.1, vely := v.2 }

/-- The spatial grid: a `defaultdict` in insertion order, mapping a cell to
the indices (into the dot list) of the dots bucketed there. -/
def Grid : Type := List ((ℤ × ℤ) × List ℕ)

/-- Append index `i` to cell `c`'s bucket, creating the bucket at the end
when the cell is new (Python dict insertion order). -/
def gridInsert : Grid → (ℤ × ℤ) → ℕ → Grid
  | [], c, i => [(c, [i])]
  | (c', l) :: g, c, i =>
      if c' = c then (c', l ++ [i]) :: g else (c', l) :: gridInsert g c i

/-- The grid produced by the `dot.update(grid)` pass over the dot list:
each (already advanced) dot is appended to the bucket of its cell, in list
order. -/
def buildGrid (zoom : ℝ) (dots : List Dot) : Grid :=
  dots.enum.foldl
    (fun g p => gridInsert g (get_grid_cell zoom (p.2.posx, p.2.posy)) p.1) []

/-- Bucket lookup (`neighbor_cell in grid` followed by `grid[neighbor_cell]`). -/
def gridFind : Grid → (ℤ × ℤ) → Option (List ℕ)
  | [], _ => none
  | (c', l) :: g, c => if c' = c then some l else gridFind g c

/-- The intra-cell pass of the main loop: every unordered pair of a
bucket, in the order of `for i, dot1 in enumerate(dots): for j in
range(i+1, len(dots))`. -/
def intraPairs : List ℕ → List (ℕ × ℕ)
  | [] => []
  | i :: rest => rest.map (fun j => (i, j)) ++ intraPairs rest

/-- `for dot1 in dots: for dot2 in grid[neighbor_cell]`. -/
def cellCross (l1 l2 : List ℕ) : List (ℕ × ℕ) :=
  l1.flatMap (fun i => l2.map (fun j => (i, j)))

/-- The candidate pairs one occupied cell contributes: its intra-cell
pairs, then for each of the 8 neighbor offsets the cross pairs with that
neighbor's bucket when it is occupied. -/
def cellPairs (g : Grid) (cell : ℤ × ℤ) (l : List ℕ) : List (ℕ × ℕ) :=
  intraPairs l ++
    neighbor_offsets.flatMap (fun off =>
      match gridFind g (cell.1 + off.1, cell.2 + off.2) with
      | some l2 => cellCross l l2
      | none => [])

/-- All candidate pairs of one tick, in the order the nested loops of the
main loop visit them (`for cell, dots in grid.items(): ...`). -/
def candidatePairs (g : Grid) : List (ℕ × ℕ) :=
  g.flatMap (fun ci => cellPairs g ci.1 ci.2)

/-- One candidate pair: `if detect_collision(dot1, dot2):
resolve_collision(dot1, dot2)`, reading and writing the current dot
list; `none` propagates a modelled `ZeroDivisionError`. -/
def resolveStep (dots : List Dot) (i j : ℕ) : Option (List Dot) :=
  match dots[i]?, dots[j]? with
  | some a, some b =>
      if detect_collision a b then
        match resolve_collision a b with
        | none => none
        | some (va, vb) => some ((dots.set i (setVel a va)).set j (setVel b vb))
      else some dots
  | _, _ => some dots

/-- Run the candidate pairs in order, threading the dot list. -/
def runPairs (dots : List Dot) : List (ℕ × ℕ) → Option (List Dot)
  | [] => some dots
  | p :: rest =>
      match resolveStep dots p.1 p.2 with
      | none => none
      | some dots' => runPairs dots' rest

/-- The collision phase of one tick: the intra-cell pass plus the
symmetric 8-neighbor inter-cell pass of the main loop, on dots that have
already been advanced and bucketed. -/
def collisionPhase (zoom : ℝ) (dots : List Dot) : Option (List Dot) :=
  runPairs dots (candidatePairs (buildGrid zoom dots))

/-- One physics tick of the main loop: advance every dot (`dot.update`),
bucket them, then run the collision phase. -/
def physicsTick (zoom : ℝ) (dots : List Dot) : Option (List Dot) :=
  collisionPhase zoom (dots.map Dot.update)

/-- One frame of the main loop restricted to state the simulation keeps:
the physics tick, then the visibility pass that stores
`check_visibility` on every dot. -/
def frameTick (offset : ℝ × ℝ) (zoom winW winH : ℝ) (dots : List Dot) :
    Option (List Dot) :=
  (physicsTick zoom dots).map
    (List.map (fun d => { d with visible := check_visibility offset zoom winW winH d }))

/-- The position and velocity of a dot — the physics state C10 compares. -/
def physState (d : Dot) : (ℝ × ℝ) × (ℝ × ℝ) :=
  ((d.posx, d.posy), (d.velx, d.vely))

/-- The camera re-centering of the `MOUSEWHEEL` handler: the offset update
`CURRENT_POSITION -= mouse / current_zoom - mouse / new_zoom`, with the
already-clamped new zoom as a parameter. -/
def applyZoom (offset : ℝ × ℝ) (oldZoom newZoom : ℝ) (mouse : ℝ × ℝ) : ℝ × ℝ :=
  (offset.1 - (mouse.1 / oldZoom - mouse.1 / newZoom),
   offset.2 - (mouse.2 / oldZoom - mouse.2 / newZoom))

/-- World-to-screen map of the draw pass: `(pos + CURRENT_POSITION) * zoom`. -/
def worldToScreen (offset : ℝ × ℝ) (zoom : ℝ) (w : ℝ × ℝ) : ℝ × ℝ :=
  ((w.1 + offset.1) * zoom, (w.2 + offset.2) * zoom)

/-- Following the spec's words, for the refinement comparison of C6: the
grid cell for a configuration-constant cell size,
`(floor(x / cellSize), floor(y / cellSize))`. -/
def cell_spec (cellSize : ℝ) (p : ℝ × ℝ) : ℤ × ℤ :=
  (⌊p.1 / cellSize⌋, ⌊p.2 / cellSize⌋)

/-- Following the spec's words, for the comparison of C8: the screen-space
bounding box of the body (margin = radius) intersects
`[0, screenWidth] × [0, screenHeight]`, with
`worldToScreen(pos) = (pos + offset) * zoom`. -/
def isVisible_spec (offset : ℝ × ℝ) (zoom winW winH : ℝ) (d : Dot) : Prop :=
  ∃ q : ℝ × ℝ,
    ((worldToScreen offset zoom (d.posx, d.posy)).1 - d.size ≤ q.1 ∧
      q.1 ≤ (worldToScreen offset zoom (d.posx, d.posy)).1 + d.size) ∧
    ((worldToScreen offset zoom (d.posx, d.posy)).2 - d.size ≤ q.2 ∧
      q.2 ≤ (worldToScreen offset zoom (d.posx, d.posy)).2 + d.size) ∧
    (0 ≤ q.1 ∧ q.1 ≤ winW) ∧ (0 ≤ q.2 ∧ q.2 ≤ winH)

/-- The collision normal `nx = dx / dist` computed by `resolve_collision`. -/
def normalX (d0 d1 : Dot) : ℝ :=
  (d1.posx - d0.posx) /
    Real.sqrt ((d1.posx - d0.posx) * (d1.posx - d0.posx) +
      (d1.posy - d0.posy) * (d1.posy - d0.posy))

/-- The collision normal `ny = dy / dist` computed by `resolve_collision`. -/
def normalY (d0 d1 : Dot) : ℝ :=
  (d1.posy - d0.posy) /
    Real.sqrt ((d1.posx - d0.posx) * (d1.posx - d0.posx) +
      (d1.posy - d0.posy) * (d1.posy - d0.posy))

/-- The relative velocity along the normal (`dot_product` in
`resolve_collision`). -/
def relVn (d0 d1 : Dot) : ℝ :=
  (d1.velx - d0.velx) * normalX d0 d1 + (d1.vely - d0.vely) * normalY d0 d1

end

/-! ## Helper lemmas -/

/-- A point interval `[s-r, s+r]` meets `[0, w]` exactly when
`-r ≤ s ≤ w + r` (one axis of the visibility predicate). -/
theorem interval_meets_iff (s r w : ℝ) (hr : 0 ≤ r) (hw : 0 ≤ w) :
    (-r ≤ s ∧ s ≤ w + r) ↔ ∃ q, (s - r ≤ q ∧ q ≤ s + r) ∧ 0 ≤ q ∧ q ≤ w := by
  constructor
  · rintro ⟨h1, h2⟩
    refine ⟨max 0 (min s w), ⟨?_, ?_⟩, le_max_left _ _,
      max_le hw (min_le_right _ _)⟩
    · rcases le_total s w with hsw | hsw
      · exact le_max_of_le_right (by rw [min_eq_left hsw]; linarith)
      · exact le_max_of_le_right (by rw [min_eq_right hsw]; linarith)
    · exact max_le (by linarith) (le_trans (min_le_left _ _) (by linarith))
  · rintro ⟨q, ⟨hq1, hq2⟩, hq3, hq4⟩
    exact ⟨by linarith, by linarith⟩

/-- The center distance vanishes exactly when the centers coincide. -/
theorem sqrt_mul_self_add_eq_zero (a b : ℝ) :
    Real.sqrt (a * a + b * b) = 0 ↔ a = 0 ∧ b = 0 := by
  rw [Real.sqrt_eq_zero']
  constructor
  · intro h
    have ha : a * a = 0 := by nlinarith [mul_self_nonneg a, mul_self_nonneg b]
    have hb : b * b = 0 := by nlinarith [mul_self_nonneg a, mul_self_nonneg b]
    exact ⟨mul_self_eq_zero.mp ha, mul_self_eq_zero.mp hb⟩
  · rintro ⟨rfl, rfl⟩
    norm_num

/-- Distinct centers give a positive squared distance. -/
theorem sep_sq_pos (d0 d1 : Dot) (hpos : ¬(d0.posx = d1.posx ∧ d0.posy = d1.posy)) :
    0 < (d1.posx - d0.posx) * (d1.posx - d0.posx) +
      (d1.posy - d0.posy) * (d1.posy - d0.posy) := by
  rcases not_and_or.mp hpos with hne | hne
  · have h : d1.posx - d0.posx ≠ 0 := fun h => hne (by linarith)
    nlinarith [mul_self_pos.mpr h, mul_self_nonneg (d1.posy - d0.posy)]
  · have h : d1.posy - d0.posy ≠ 0 := fun h => hne (by linarith)
    nlinarith [mul_self_pos.mpr h, mul_self_nonneg (d1.posx - d0.posx)]

/-- Distinct centers give a nonzero center distance. -/
theorem sep_sqrt_ne_zero (d0 d1 : Dot)
    (hpos : ¬(d0.posx = d1.posx ∧ d0.posy = d1.posy)) :
    ¬(Real.sqrt ((d1.posx - d0.posx) * (d1.posx - d0.posx) +
      (d1.posy - d0.posy) * (d1.posy - d0.posy)) = 0) :=
  ne_of_gt (Real.sqrt_pos.mpr (sep_sq_pos d0 d1 hpos))

/-- The collision normal is a unit vector (for distinct centers). -/
theorem normal_sq_one (d0 d1 : Dot)
    (hpos : ¬(d0.posx = d1.posx ∧ d0.posy = d1.posy)) :
    normalX d0 d1 * normalX d0 d1 + normalY d0 d1 * normalY d0 d1 = 1 := by
  have hS := sep_sq_pos d0 d1 hpos
  have hsq := Real.mul_self_sqrt (le_of_lt hS)
  unfold normalX normalY
  rw [div_mul_div_comm, div_mul_div_comm, div_add_div_same, hsq]
  exact div_self (ne_of_gt hS)

/-- Swapping the roles of the two dots negates the `x` normal; updating
velocities does not move it. -/
theorem normalX_swap (a b : Dot) (wa wb : ℝ × ℝ) :
    normalX (setVel b wb) (setVel a wa) = -normalX a b := by
  unfold normalX setVel
  dsimp only
  rw [show (a.posx - b.posx) * (a.posx - b.posx) + (a.posy - b.posy) * (a.posy - b.posy)
      = (b.posx - a.posx) * (b.posx - a.posx) + (b.posy - a.posy) * (b.posy - a.posy)
    from by ring]
  ring

/-- Swapping the roles of the two dots negates the `y` normal. -/
theorem normalY_swap (a b : Dot) (wa wb : ℝ × ℝ) :
    normalY (setVel b wb) (setVel a wa) = -normalY a b := by
  unfold normalY setVel
  dsimp only
  rw [show (a.posx - b.posx) * (a.posx - b.posx) + (a.posy - b.posy) * (a.posy - b.posy)
      = (b.posx - a.posx) * (b.posx - a.posx) + (b.posy - a.posy) * (b.posy - a.posy)
    from by ring]
  ring

/-- `detect_collision` only reads positions and radii and is symmetric. -/
theorem detect_swap_setVel (a b : Dot) (wa wb : ℝ × ℝ) :
    detect_collision (setVel b wb) (setVel a wa) ↔ detect_collision a b := by
  unfold detect_collision setVel
  dsimp only
  rw [abs_sub_comm b.posx a.posx, abs_sub_comm b.posy a.posy,
    add_comm b.size a.size,
    show (b.posx - a.posx) * (b.posx - a.posx) + (b.posy - a.posy) * (b.posy - a.posy)
      = (a.posx - b.posx) * (a.posx - b.posx) + (a.posy - b.posy) * (a.posy - b.posy)
    from by ring]

/-- Closed form of `resolve_collision` for distinct centers and a nonzero
mass sum, phrased with `relVn`, `normalX`, `normalY`. -/
theorem resolve_eq_closed (d0 d1 : Dot)
    (hd : ¬(Real.sqrt ((d1.posx - d0.posx) * (d1.posx - d0.posx) +
      (d1.posy - d0.posy) * (d1.posy - d0.posy)) = 0))
    (hm : ¬(d0.size + d1.size = 0)) :
    resolve_collision d0 d1 =
      if 0 < relVn d0 d1 then some ((d0.velx, d0.vely), (d1.velx, d1.vely))
      else
        some ((d0.velx + 2 * relVn d0 d1 / (d0.size + d1.size) * d1.size * normalX d0 d1,
               d0.vely + 2 * relVn d0 d1 / (d0.size + d1.size) * d1.size * normalY d0 d1),
              (d1.velx - 2 * relVn d0 d1 / (d0.size + d1.size) * d0.size * normalX d0 d1,
               d1.vely - 2 * relVn d0 d1 / (d0.size + d1.size) * d0.size * normalY d0 d1)) := by
  simp only [resolve_collision]
  rw [if_neg hd, if_neg hm]
  rfl

/-- Resolving an already-resolved pair again with the roles swapped (the
second visit of a straddling pair in the symmetric neighbor pass) leaves
both velocities unchanged. -/
theorem resolve_again_noop (d0 d1 : Dot) (w0 w1 : ℝ × ℝ)
    (hm : ¬(d0.size + d1.size = 0))
    (hpos : ¬(d0.posx = d1.posx ∧ d0.posy = d1.posy))
    (hres : resolve_collision d0 d1 = some (w0, w1)) :
    resolve_collision (setVel d1 w1) (setVel d0 w0) = some (w1, w0) := by
  have hd := sep_sqrt_ne_zero d0 d1 hpos
  have hnn := normal_sq_one d0 d1 hpos
  have hd' : ¬(Real.sqrt
      (((setVel d0 w0).posx - (setVel d1 w1).posx) *
          ((setVel d0 w0).posx - (setVel d1 w1).posx) +
        ((setVel d0 w0).posy - (setVel d1 w1).posy) *
          ((setVel d0 w0).posy - (setVel d1 w1).posy)) = 0) := by
    dsimp only [setVel]
    rw [show (d0.posx - d1.posx) * (d0.posx - d1.posx) +
        (d0.posy - d1.posy) * (d0.posy - d1.posy)
        = (d1.posx - d0.posx) * (d1.posx - d0.posx) +
          (d1.posy - d0.posy) * (d1.posy - d0.posy) from by ring]
    exact hd
  have hm' : ¬((setVel d1 w1).size + (setVel d0 w0).size = 0) := by
    dsimp only [setVel]
    intro h
    exact hm (by linarith)
  have hk : 2 * relVn d0 d1 / (d0.size + d1.size) * (d0.size + d1.size) =
      2 * relVn d0 d1 := div_mul_cancel₀ _ hm
  rw [resolve_eq_closed d0 d1 hd hm] at hres
  rw [resolve_eq_closed (setVel d1 w1) (setVel d0 w0) hd' hm']
  have hrel : relVn (setVel d1 w1) (setVel d0 w0) =
      (w0.1 - w1.1) * -normalX d0 d1 + (w0.2 - w1.2) * -normalY d0 d1 := by
    unfold relVn
    rw [normalX_swap, normalY_swap]
    dsimp only [setVel]
  by_cases hdp : 0 < relVn d0 d1
  · rw [if_pos hdp] at hres
    simp only [Option.some.injEq, Prod.mk.injEq] at hres
    obtain ⟨h0, h1⟩ := hres
    have h0x : w0.1 = d0.velx := by rw [← h0]
    have h0y : w0.2 = d0.vely := by rw [← h0]
    have h1x : w1.1 = d1.velx := by rw [← h1]
    have h1y : w1.2 = d1.vely := by rw [← h1]
    have e : relVn (setVel d1 w1) (setVel d0 w0) = relVn d0 d1 := by
      rw [hrel, h0x, h0y, h1x, h1y]
      unfold relVn
      ring
    rw [e, if_pos hdp]
    rfl
  · rw [if_neg hdp] at hres
    simp only [Option.some.injEq, Prod.mk.injEq] at hres
    obtain ⟨h0, h1⟩ := hres
    have h0x : w0.1 =
        d0.velx + 2 * relVn d0 d1 / (d0.size + d1.size) * d1.size * normalX d0 d1 := by
      rw [← h0]
    have h0y : w0.2 =
        d0.vely + 2 * relVn d0 d1 / (d0.size + d1.size) * d1.size * normalY d0 d1 := by
      rw [← h0]
    have h1x : w1.1 =
        d1.velx - 2 * relVn d0 d1 / (d0.size + d1.size) * d0.size * normalX d0 d1 := by
      rw [← h1]
    have h1y : w1.2 =
        d1.vely - 2 * relVn d0 d1 / (d0.size + d1.size) * d0.size * normalY d0 d1 := by
      rw [← h1]
    have hdef : (d1.velx - d0.velx) * normalX d0 d1 +
        (d1.vely - d0.vely) * normalY d0 d1 = relVn d0 d1 := rfl
    have e : relVn (setVel d1 w1) (setVel d0 w0) = -relVn d0 d1 := by
      rw [hrel, h0x, h0y, h1x, h1y]
      linear_combination hdef +
        (-(normalX d0 d1 * normalX d0 d1 + normalY d0 d1 * normalY d0 d1)) * hk -
          2 * relVn d0 d1 * hnn
    rw [e]
    by_cases hz : 0 < -relVn d0 d1
    · rw [if_pos hz]
      rfl
    · have hvz : relVn d0 d1 = 0 := by
        have ha := not_lt.mp hdp
        have hb := not_lt.mp hz
        linarith
      rw [if_neg hz, normalX_swap, normalY_swap]
      dsimp only [setVel]
      rw [h0x, h0y, h1x, h1y, hvz]
      norm_num
      refine ⟨?_, ?_⟩
      · rw [← h1, hvz]
        norm_num [Prod.mk.injEq]
      · rw [← h0, hvz]
        norm_num [Prod.mk.injEq]

/-- The grid built from two dots in distinct cells. -/
theorem buildGrid_pair (z : ℝ) (d0 d1 : Dot)
    (h : get_grid_cell z (d0.posx, d0.posy) ≠ get_grid_cell z (d1.posx, d1.posy)) :
    buildGrid z [d0, d1] =
      [(get_grid_cell z (d0.posx, d0.posy), [0]),
       (get_grid_cell z (d1.posx, d1.posy), [1])] := by
  simp [buildGrid, List.enum, List.enumFrom, gridInsert, h]

/-- The candidate pairs of a two-cell grid with adjacent cells: the
straddling pair is visited from both sides, and from both sides only. -/
theorem candidatePairs_pair (c0 c1 : ℤ × ℤ)
    (hadj : ∃ off ∈ neighbor_offsets, c1 = (c0.1 + off.1, c0.2 + off.2)) :
    candidatePairs [(c0, [0]), (c1, [1])] = [(0, 1), (1, 0)] := by
  obtain ⟨off, hoff, rfl⟩ := hadj
  fin_cases hoff <;>
    norm_num [candidatePairs, cellPairs, cellCross, intraPairs, gridFind,
      neighbor_offsets, Prod.ext_iff, add_assoc]

/-! ## The claims -/

/-- C2 (status `code_bug`): the spec requires `resolve` on two bodies with
coinciding centers to be a no-op, but the code computes `nx = dx / dist`
with `dist = 0`, which in Python raises `ZeroDivisionError` (modelled here
by `none`): there is no no-op branch. -/
theorem resolve_coincident_centers_divides_by_zero (d0 d1 : Dot)
    (hx : d0.posx = d1.posx) (hy : d0.posy = d1.posy) :
    resolve_collision d0 d1 = none := by
  simp [resolve_collision, hx, hy]

/-- Witness for C2 at a concrete coincident pair. -/
theorem resolve_coincident_centers_divides_by_zero_witness :
    resolve_collision ⟨100, 100, 3, 1, (255, 255, 255), 13, False⟩
      ⟨100, 100, -2, 0, (50, 50, 50), 13, False⟩ = none :=
  resolve_coincident_centers_divides_by_zero _ _ rfl rfl

/-- C3 (confirmed): for positive radii and non-coincident centers,
`resolve_collision` succeeds and conserves the radius-weighted momentum
`ra*aVel + rb*bVel` on both components, for every input velocity pair. -/
theorem resolve_conserves_momentum (d0 d1 : Dot)
    (h0 : 0 < d0.size) (h1 : 0 < d1.size)
    (hpos : ¬(d0.posx = d1.posx ∧ d0.posy = d1.posy)) :
    ∃ w0 w1, resolve_collision d0 d1 = some (w0, w1) ∧
      d0.size * w0.1 + d1.size * w1.1 = d0.size * d0.velx + d1.size * d1.velx ∧
      d0.size * w0.2 + d1.size * w1.2 = d0.size * d0.vely + d1.size * d1.vely := by
  have hd : ¬(Real.sqrt ((d1.posx - d0.posx) * (d1.posx - d0.posx) +
      (d1.posy - d0.posy) * (d1.posy - d0.posy)) = 0) := by
    rw [sqrt_mul_self_add_eq_zero]
    rintro ⟨e1, e2⟩
    exact hpos ⟨by linarith, by linarith⟩
  have hm : ¬(d0.size + d1.size = 0) := by
    intro h
    linarith
  simp only [resolve_collision]
  rw [if_neg hd, if_neg hm]
  split_ifs with hdp
  · exact ⟨_, _, rfl, by ring, by ring⟩
  · exact ⟨_, _, rfl, by ring, by ring⟩

/-- Witness for C3 at a concrete colliding pair. -/
theorem resolve_conserves_momentum_witness :
    ∃ w0 w1,
      resolve_collision ⟨0, 0, 1, 0, (1, 2, 3), 2, False⟩
          ⟨3, 0, -1, 0, (4, 5, 6), 3, False⟩ = some (w0, w1) ∧
      2 * w0.1 + 3 * w1.1 = 2 * 1 + 3 * (-1) ∧
      2 * w0.2 + 3 * w1.2 = 2 * 0 + 3 * 0 := by
  have h := resolve_conserves_momentum ⟨0, 0, 1, 0, (1, 2, 3), 2, False⟩
    ⟨3, 0, -1, 0, (4, 5, 6), 3, False⟩ (by norm_num) (by norm_num) (by norm_num)
  simpa using h

/-- C5 (confirmed): for any body whose diameter fits the world on each
axis, one `update` step leaves the position inside
`[size, WORLD_SIZE - size]` on both axes, for arbitrary input position and
velocity, and negates the velocity component of any axis whose wall was
hit. -/
theorem update_wall_containment (d : Dot)
    (hx : 2 * d.size ≤ WORLD_SIZE.1) (hy : 2 * d.size ≤ WORLD_SIZE.2) :
    (d.size ≤ d.update.posx ∧ d.update.posx ≤ WORLD_SIZE.1 - d.size) ∧
    (d.size ≤ d.update.posy ∧ d.update.posy ≤ WORLD_SIZE.2 - d.size) ∧
    ((d.posx + d.velx < d.size ∨ d.posx + d.velx > WORLD_SIZE.1 - d.size) →
      d.update.velx = -d.velx) ∧
    ((d.posy + d.vely < d.size ∨ d.posy + d.vely > WORLD_SIZE.2 - d.size) →
      d.update.vely = -d.vely) := by
  have hx' : d.size ≤ WORLD_SIZE.1 - d.size := by linarith
  have hy' : d.size ≤ WORLD_SIZE.2 - d.size := by linarith
  simp only [Dot.update]
  split_ifs with h1 h2 h2 <;>
    refine ⟨⟨?_, ?_⟩, ⟨?_, ?_⟩, fun h => ?_, fun h => ?_⟩ <;>
    first
      | exact le_max_left _ _
      | exact max_le hx' (min_le_right _ _)
      | exact max_le hy' (min_le_right _ _)
      | rfl
      | exact absurd h h1
      | exact absurd h h2
      | (push_neg at h1; first | exact h1.1 | exact h1.2)
      | (push_neg at h2; first | exact h2.1 | exact h2.2)

/-- Witness for C5: a body thrown far past the left wall. -/
theorem update_wall_containment_witness :
    ((10 : ℝ) ≤ (Dot.update ⟨5, 100, -50, 0, (0, 0, 0), 10, False⟩).posx ∧
      (Dot.update ⟨5, 100, -50, 0, (0, 0, 0), 10, False⟩).posx ≤ WORLD_SIZE.1 - 10) ∧
    ((10 : ℝ) ≤ (Dot.update ⟨5, 100, -50, 0, (0, 0, 0), 10, False⟩).posy ∧
      (Dot.update ⟨5, 100, -50, 0, (0, 0, 0), 10, False⟩).posy ≤ WORLD_SIZE.2 - 10) ∧
    (((5 : ℝ) + (-50) < 10 ∨ (5 : ℝ) + (-50) > WORLD_SIZE.1 - 10) →
      (Dot.update ⟨5, 100, -50, 0, (0, 0, 0), 10, False⟩).velx = -(-50)) ∧
    (((100 : ℝ) + 0 < 10 ∨ (100 : ℝ) + 0 > WORLD_SIZE.2 - 10) →
      (Dot.update ⟨5, 100, -50, 0, (0, 0, 0), 10, False⟩).vely = -0) :=
  update_wall_containment ⟨5, 100, -50, 0, (0, 0, 0), 10, False⟩
    (by norm_num [WORLD_SIZE]) (by norm_num [WORLD_SIZE])

/-- C6 counterexample: the cell a position is bucketed into depends on the
current display zoom — position `(30, 0)` lands in cell `(1, 0)` at zoom 1
but in cell `(2, 0)` at zoom 2, so the cell is not a function of the
position alone. -/
theorem get_grid_cell_depends_on_zoom :
    get_grid_cell 1 (30, 0) ≠ get_grid_cell 2 (30, 0) := by
  have h1 : (get_grid_cell 1 (30, 0)).1 = 1 := by
    simp only [get_grid_cell, GRID_SIZE]
    rw [Int.floor_eq_iff] <;> norm_num
  have h2 : (get_grid_cell 2 (30, 0)).1 = 2 := by
    simp only [get_grid_cell, GRID_SIZE]
    rw [Int.floor_eq_iff] <;> norm_num
  intro h
  rw [h, h2] at h1
  exact absurd h1 (by norm_num)

/-- C6 amended (corrected): the cell is
`(floor(x / cs), floor(y / cs))` for the zoom-adjusted cell size
`cs = GRID_SIZE / current_zoom`, i.e. a function of the position and the
display zoom; at zoom 1 the cell size is the constant `GRID_SIZE = 25`. -/
theorem get_grid_cell_matches_spec_cell :
    (∀ zoom p, get_grid_cell zoom p = cell_spec (GRID_SIZE / zoom) p) ∧
    (∀ p, get_grid_cell 1 p = cell_spec GRID_SIZE p) := by
  refine ⟨fun zoom p => rfl, fun p => ?_⟩
  simp [get_grid_cell, cell_spec]

/-- C7 (confirmed): for a nonnegative radius sum, `detect_collision` holds
exactly when `(ax-bx)² + (ay-by)² < (ra+rb)²` (strict — tangency is not a
collision): the bounding-box early rejection never changes the outcome of
the exact test. -/
theorem detect_collision_iff_exact_test (d0 d1 : Dot)
    (h : 0 ≤ d0.size + d1.size) :
    detect_collision d0 d1 ↔
      (d0.posx - d1.posx) ^ 2 + (d0.posy - d1.posy) ^ 2 <
        (d0.size + d1.size) ^ 2 := by
  unfold detect_collision
  constructor
  · rintro ⟨-, hlt⟩
    nlinarith [hlt]
  · intro hlt
    refine ⟨?_, by nlinarith [hlt]⟩
    push_neg
    constructor
    · nlinarith [sq_abs (d0.posx - d1.posx), sq_nonneg (d0.posy - d1.posy),
        abs_nonneg (d0.posx - d1.posx)]
    · nlinarith [sq_abs (d0.posy - d1.posy), sq_nonneg (d0.posx - d1.posx),
        abs_nonneg (d0.posy - d1.posy)]

/-- Witness for C7 at a concrete overlapping pair. -/
theorem detect_collision_iff_exact_test_witness :
    detect_collision ⟨0, 0, 0, 0, (0, 0, 0), 1, False⟩
        ⟨1, 0, 0, 0, (0, 0, 0), 1, False⟩ ↔
      ((0 : ℝ) - 1) ^ 2 + ((0 : ℝ) - 0) ^ 2 < ((1 : ℝ) + 1) ^ 2 :=
  detect_collision_iff_exact_test ⟨0, 0, 0, 0, (0, 0, 0), 1, False⟩
    ⟨1, 0, 0, 0, (0, 0, 0), 1, False⟩ (by norm_num)

/-- C9 (confirmed): for zooms in `[0.1, 3]`, any starting offset and any
anchor screen point, the `MOUSEWHEEL` re-centering maps the world point
that was under the anchor back to the same screen point at the new zoom. -/
theorem zoom_recenters_anchor_point (offset : ℝ × ℝ) (oldZoom newZoom : ℝ)
    (mouse : ℝ × ℝ)
    (h1 : 0.1 ≤ oldZoom) (h2 : oldZoom ≤ 3)
    (h3 : 0.1 ≤ newZoom) (h4 : newZoom ≤ 3) :
    worldToScreen (applyZoom offset oldZoom newZoom mouse) newZoom
      (mouse.1 / oldZoom - offset.1, mouse.2 / oldZoom - offset.2) = mouse := by
  have ho : oldZoom ≠ 0 := by intro h; rw [h] at h1; norm_num at h1
  have hn : newZoom ≠ 0 := by intro h; rw [h] at h3; norm_num at h3
  unfold worldToScreen applyZoom
  rw [Prod.ext_iff]
  constructor <;> (simp only; field_simp; ring)

/-- Witness for C9: the spec's scenario — zoom 1 → 2 around screen point
`(400, 300)` with offset `(0, 0)` keeps world point `(400, 300)` under the
same screen point. -/
theorem zoom_recenters_anchor_point_witness :
    worldToScreen (applyZoom (0, 0) 1 2 (400, 300)) 2
      ((400 : ℝ) / 1 - 0, (300 : ℝ) / 1 - 0) = (400, 300) :=
  zoom_recenters_anchor_point (0, 0) 1 2 (400, 300)
    (by norm_num) (by norm_num) (by norm_num) (by norm_num)

/-- C8 (confirmed): `check_visibility` holds exactly when the screen-space
bounding box of the body (margin = radius) meets the window rectangle;
and in the spec's scenario (offset `(0,0)`, zoom 1, screen 800×600) a
radius-10 body at `(100, 100)` is visible while one at `(5000, 4000)` is
not. -/
theorem check_visibility_iff_bbox_intersection :
    (∀ offset zoom winW winH d, 0 ≤ Dot.size d → 0 ≤ winW → 0 ≤ winH →
      (check_visibility offset zoom winW winH d ↔
        isVisible_spec offset zoom winW winH d)) ∧
    check_visibility (0, 0) 1 800 600 ⟨100, 100, 0, 0, (0, 0, 0), 10, False⟩ ∧
    ¬check_visibility (0, 0) 1 800 600 ⟨5000, 4000, 0, 0, (0, 0, 0), 10, False⟩ := by
  refine ⟨fun offset zoom winW winH d hs hw hh => ?_, ?_, ?_⟩
  · have hx := interval_meets_iff ((d.posx + offset.1) * zoom) d.size winW hs hw
    have hy := interval_meets_iff ((d.posy + offset.2) * zoom) d.size winH hs hh
    unfold check_visibility isVisible_spec worldToScreen
    constructor
    · rintro ⟨hax, hay⟩
      obtain ⟨qx, ⟨e1, e2⟩, e3, e4⟩ := hx.mp hax
      obtain ⟨qy, ⟨f1, f2⟩, f3, f4⟩ := hy.mp hay
      exact ⟨(qx, qy), ⟨e1, e2⟩, ⟨f1, f2⟩, ⟨e3, e4⟩, ⟨f3, f4⟩⟩
    · rintro ⟨q, ⟨e1, e2⟩, ⟨f1, f2⟩, ⟨e3, e4⟩, ⟨f3, f4⟩⟩
      exact ⟨hx.mpr ⟨q.1, ⟨e1, e2⟩, e3, e4⟩, hy.mpr ⟨q.2, ⟨f1, f2⟩, f3, f4⟩⟩
  · unfold check_visibility
    norm_num
  · unfold check_visibility
    norm_num

/-- C4 (confirmed): when the pair is non-separating (`dot_product ≤ 0`,
so the impulse branch runs), the relative velocity along the collision
normal maps to its exact negation — equal magnitude — and both bodies'
velocity components along the tangent `(-ny, nx)` are unchanged. -/
theorem resolve_elastic_normal_and_tangent (d0 d1 : Dot)
    (h0 : 0 < d0.size) (h1 : 0 < d1.size)
    (hpos : ¬(d0.posx = d1.posx ∧ d0.posy = d1.posy))
    (hvn : relVn d0 d1 ≤ 0) :
    ∃ w0 w1, resolve_collision d0 d1 = some (w0, w1) ∧
      (w1.1 - w0.1) * normalX d0 d1 + (w1.2 - w0.2) * normalY d0 d1
        = -relVn d0 d1 ∧
      w0.1 * (-normalY d0 d1) + w0.2 * normalX d0 d1
        = d0.velx * (-normalY d0 d1) + d0.vely * normalX d0 d1 ∧
      w1.1 * (-normalY d0 d1) + w1.2 * normalX d0 d1
        = d1.velx * (-normalY d0 d1) + d1.vely * normalX d0 d1 := by
  have hS : 0 < (d1.posx - d0.posx) * (d1.posx - d0.posx) +
      (d1.posy - d0.posy) * (d1.posy - d0.posy) := by
    rcases not_and_or.mp hpos with hne | hne
    · have : d1.posx - d0.posx ≠ 0 := fun h => hne (by linarith)
      nlinarith [mul_self_pos.mpr this, mul_self_nonneg (d1.posy - d0.posy)]
    · have : d1.posy - d0.posy ≠ 0 := fun h => hne (by linarith)
      nlinarith [mul_self_pos.mpr this, mul_self_nonneg (d1.posx - d0.posx)]
  have hdist : 0 < Real.sqrt ((d1.posx - d0.posx) * (d1.posx - d0.posx) +
      (d1.posy - d0.posy) * (d1.posy - d0.posy)) := Real.sqrt_pos.mpr hS
  have hd : ¬(Real.sqrt ((d1.posx - d0.posx) * (d1.posx - d0.posx) +
      (d1.posy - d0.posy) * (d1.posy - d0.posy)) = 0) := ne_of_gt hdist
  have hsq : Real.sqrt ((d1.posx - d0.posx) * (d1.posx - d0.posx) +
        (d1.posy - d0.posy) * (d1.posy - d0.posy)) *
      Real.sqrt ((d1.posx - d0.posx) * (d1.posx - d0.posx) +
        (d1.posy - d0.posy) * (d1.posy - d0.posy)) =
      (d1.posx - d0.posx) * (d1.posx - d0.posx) +
        (d1.posy - d0.posy) * (d1.posy - d0.posy) :=
    Real.mul_self_sqrt (le_of_lt hS)
  have hnn : normalX d0 d1 * normalX d0 d1 + normalY d0 d1 * normalY d0 d1 = 1 := by
    unfold normalX normalY
    rw [div_mul_div_comm, div_mul_div_comm, div_add_div_same, hsq]
    exact div_self (ne_of_gt hS)
  have hm : ¬(d0.size + d1.size = 0) := by intro h; linarith
  have hvn' : ¬((d1.velx - d0.velx) * normalX d0 d1 +
      (d1.vely - d0.vely) * normalY d0 d1 > 0) := not_lt.mpr hvn
  have hk : 2 * ((d1.velx - d0.velx) * normalX d0 d1 +
        (d1.vely - d0.vely) * normalY d0 d1) / (d0.size + d1.size) *
      (d0.size + d1.size) =
      2 * ((d1.velx - d0.velx) * normalX d0 d1 +
        (d1.vely - d0.vely) * normalY d0 d1) :=
    div_mul_cancel₀ _ hm
  simp only [resolve_collision]
  rw [if_neg hd]
  rw [show (d1.posx - d0.posx) /
      Real.sqrt ((d1.posx - d0.posx) * (d1.posx - d0.posx) +
        (d1.posy - d0.posy) * (d1.posy - d0.posy)) = normalX d0 d1 from rfl]
  rw [show (d1.posy - d0.posy) /
      Real.sqrt ((d1.posx - d0.posx) * (d1.posx - d0.posx) +
        (d1.posy - d0.posy) * (d1.posy - d0.posy)) = normalY d0 d1 from rfl]
  rw [if_neg hvn', if_neg hm]
  refine ⟨_, _, rfl, ?_, by dsimp only; ring, by dsimp only; ring⟩
  dsimp only
  unfold relVn
  linear_combination (-(normalX d0 d1 * normalX d0 d1 +
      normalY d0 d1 * normalY d0 d1)) * hk -
    2 * ((d1.velx - d0.velx) * normalX d0 d1 +
      (d1.vely - d0.vely) * normalY d0 d1) * hnn

/-- Witness for C4: the concrete head-on pair of the elastic scenario. -/
theorem resolve_elastic_normal_and_tangent_witness :
    ∃ w0 w1,
      resolve_collision ⟨0, 0, 1, 0, (0, 0, 0), 1, False⟩
          ⟨3, 0, -1, 0, (0, 0, 0), 1, False⟩ = some (w0, w1) ∧
      (w1.1 - w0.1) * normalX ⟨0, 0, 1, 0, (0, 0, 0), 1, False⟩
            ⟨3, 0, -1, 0, (0, 0, 0), 1, False⟩ +
          (w1.2 - w0.2) * normalY ⟨0, 0, 1, 0, (0, 0, 0), 1, False⟩
            ⟨3, 0, -1, 0, (0, 0, 0), 1, False⟩
        = -relVn ⟨0, 0, 1, 0, (0, 0, 0), 1, False⟩
            ⟨3, 0, -1, 0, (0, 0, 0), 1, False⟩ ∧
      w0.1 * (-normalY ⟨0, 0, 1, 0, (0, 0, 0), 1, False⟩
            ⟨3, 0, -1, 0, (0, 0, 0), 1, False⟩) +
          w0.2 * normalX ⟨0, 0, 1, 0, (0, 0, 0), 1, False⟩
            ⟨3, 0, -1, 0, (0, 0, 0), 1, False⟩
        = 1 * (-normalY ⟨0, 0, 1, 0, (0, 0, 0), 1, False⟩
            ⟨3, 0, -1, 0, (0, 0, 0), 1, False⟩) +
          0 * normalX ⟨0, 0, 1, 0, (0, 0, 0), 1, False⟩
            ⟨3, 0, -1, 0, (0, 0, 0), 1, False⟩ ∧
      w1.1 * (-normalY ⟨0, 0, 1, 0, (0, 0, 0), 1, False⟩
            ⟨3, 0, -1, 0, (0, 0, 0), 1, False⟩) +
          w1.2 * normalX ⟨0, 0, 1, 0, (0, 0, 0), 1, False⟩
            ⟨3, 0, -1, 0, (0, 0, 0), 1, False⟩
        = (-1) * (-normalY ⟨0, 0, 1, 0, (0, 0, 0), 1, False⟩
            ⟨3, 0, -1, 0, (0, 0, 0), 1, False⟩) +
          0 * normalX ⟨0, 0, 1, 0, (0, 0, 0), 1, False⟩
            ⟨3, 0, -1, 0, (0, 0, 0), 1, False⟩ :=
  resolve_elastic_normal_and_tangent ⟨0, 0, 1, 0, (0, 0, 0), 1, False⟩
    ⟨3, 0, -1, 0, (0, 0, 0), 1, False⟩ (by norm_num) (by norm_num) (by norm_num)
    (by
      have h9 : Real.sqrt 9 = 3 := by
        rw [show (9 : ℝ) = 3 ^ 2 by norm_num,
          Real.sqrt_sq (by norm_num : (0 : ℝ) ≤ 3)]
      norm_num [relVn, normalX, normalY, h9])

/-- C10 (confirmed): two frames with the same dots, the same zoom and the
same window but different camera offsets produce identical positions and
velocities for every body — the camera offset never influences the
physics. -/
theorem physics_independent_of_camera_offset (o1 o2 : ℝ × ℝ)
    (zoom winW winH : ℝ) (dots : List Dot) :
    (frameTick o1 zoom winW winH dots).map (List.map physState) =
      (frameTick o2 zoom winW winH dots).map (List.map physState) := by
  unfold frameTick
  rw [Option.map_map, Option.map_map, Function.comp_def, Function.comp_def]
  cases physicsTick zoom dots with
  | none => rfl
  | some l => simp only [Option.map_some, List.map_map]; rfl

/-- C1 (confirmed): for a colliding pair of bodies straddling two distinct
adjacent grid cells, the collision pass of one tick (the intra-cell pass
plus the symmetric 8-neighbor inter-cell pass, which visits the pair from
both cells) changes the velocities by exactly one application of
`resolve_collision`, not two: the second, role-swapped visit is a no-op. -/
theorem collision_pass_resolves_straddling_pair_once (z : ℝ) (d0 d1 : Dot)
    (h0 : 0 < d0.size) (h1 : 0 < d1.size)
    (hcell : get_grid_cell z (d0.posx, d0.posy) ≠ get_grid_cell z (d1.posx, d1.posy))
    (hadj : ((get_grid_cell z (d1.posx, d1.posy)).1 - (get_grid_cell z (d0.posx, d0.posy)).1,
        (get_grid_cell z (d1.posx, d1.posy)).2 - (get_grid_cell z (d0.posx, d0.posy)).2)
      ∈ neighbor_offsets)
    (hdet : detect_collision d0 d1) :
    collisionPhase z [d0, d1] =
      (resolve_collision d0 d1).map (fun w => [setVel d0 w.1, setVel d1 w.2]) := by
  have hpos : ¬(d0.posx = d1.posx ∧ d0.posy = d1.posy) := by
    rintro ⟨e1, e2⟩
    exact hcell (by rw [e1, e2])
  have hm : ¬(d0.size + d1.size = 0) := by intro h; linarith
  have hd := sep_sqrt_ne_zero d0 d1 hpos
  obtain ⟨w0, w1, hres⟩ : ∃ w0 w1, resolve_collision d0 d1 = some (w0, w1) := by
    rw [resolve_eq_closed d0 d1 hd hm]
    split_ifs <;> exact ⟨_, _, rfl⟩
  have hadj' : ∃ off ∈ neighbor_offsets,
      get_grid_cell z (d1.posx, d1.posy) =
        ((get_grid_cell z (d0.posx, d0.posy)).1 + off.1,
         (get_grid_cell z (d0.posx, d0.posy)).2 + off.2) := by
    refine ⟨_, hadj, ?_⟩
    rw [Prod.ext_iff]
    constructor <;> dsimp only <;> ring
  have hstep1 : resolveStep [d0, d1] 0 1 = some [setVel d0 w0, setVel d1 w1] := by
    unfold resolveStep
    simp only [List.getElem?_cons_zero, List.getElem?_cons_succ]
    rw [if_pos hdet, hres]
    rfl
  have hdet' : detect_collision (setVel d1 w1) (setVel d0 w0) :=
    (detect_swap_setVel d0 d1 w0 w1).mpr hdet
  have hstep2 : resolveStep [setVel d0 w0, setVel d1 w1] 1 0 =
      some [setVel d0 w0, setVel d1 w1] := by
    unfold resolveStep
    simp only [List.getElem?_cons_zero, List.getElem?_cons_succ]
    rw [if_pos hdet', resolve_again_noop d0 d1 w0 w1 hm hpos hres]
    rfl
  unfold collisionPhase
  rw [buildGrid_pair z d0 d1 hcell, candidatePairs_pair _ _ hadj', hres]
  simp only [runPairs, hstep1, hstep2]
  rfl

/-- Witness for C1: two radius-6 bodies at `(20, 10)` and `(30, 10)` (cells
`(0,0)` and `(1,0)` at zoom 1), moving toward each other. -/
theorem collision_pass_resolves_straddling_pair_once_witness :
    collisionPhase 1
        [⟨20, 10, 1, 0, (0, 0, 0), 6, False⟩, ⟨30, 10, -1, 0, (0, 0, 0), 6, False⟩] =
      (resolve_collision ⟨20, 10, 1, 0, (0, 0, 0), 6, False⟩
          ⟨30, 10, -1, 0, (0, 0, 0), 6, False⟩).map
        (fun w => [setVel ⟨20, 10, 1, 0, (0, 0, 0), 6, False⟩ w.1,
                   setVel ⟨30, 10, -1, 0, (0, 0, 0), 6, False⟩ w.2]) := by
  have c0 : get_grid_cell 1 ((20 : ℝ), (10 : ℝ)) = (0, 0) := by
    unfold get_grid_cell GRID_SIZE
    norm_num [Prod.ext_iff, Int.floor_eq_iff]
  have c1 : get_grid_cell 1 ((30 : ℝ), (10 : ℝ)) = (1, 0) := by
    unfold get_grid_cell GRID_SIZE
    norm_num [Prod.ext_iff, Int.floor_eq_iff]
  refine collision_pass_resolves_straddling_pair_once 1
    ⟨20, 10, 1, 0, (0, 0, 0), 6, False⟩ ⟨30, 10, -1, 0, (0, 0, 0), 6, False⟩
    (by norm_num) (by norm_num) ?_ ?_ ?_
  · show get_grid_cell 1 ((20 : ℝ), (10 : ℝ)) ≠ get_grid_cell 1 ((30 : ℝ), (10 : ℝ))
    rw [c0, c1]
    decide
  · show ((get_grid_cell 1 ((30 : ℝ), (10 : ℝ))).1 - (get_grid_cell 1 ((20 : ℝ), (10 : ℝ))).1,
        (get_grid_cell 1 ((30 : ℝ), (10 : ℝ))).2 - (get_grid_cell 1 ((20 : ℝ), (10 : ℝ))).2)
      ∈ neighbor_offsets
    rw [c0, c1]
    decide
  · show detect_collision ⟨20, 10, 1, 0, (0, 0, 0), 6, False⟩
      ⟨30, 10, -1, 0, (0, 0, 0), 6, False⟩
    unfold detect_collision
    refine ⟨?_, by norm_num⟩
    push_neg
    constructor <;> rw [abs_le] <;> constructor <;> norm_num
